import Mathlib

/-!
Verification of the monitorswitcher repository: a shallow embedding of the
DDC/CI transport in `src/pyddc/macos.py`, the dummy monitor backend in
`src/test/pyddc/vcp_dummy.py`, and the feature operations in
`src/monitorboss/impl.py`, together with theorems settling the frozen
claims about the natural-language specification.

Conventions of the embedding:
* Python ints are `Nat` (all the program's byte and index arithmetic is on
  non-negative values); C return statuses are `Int` (`0` = `KERN_SUCCESS`).
* Python lists/bytearrays are `List Nat`; `data[i]` becomes `List.getD`
  (every executed index in the program is in bounds: the I2C read always
  yields an 11-byte buffer, and packets have at least 3 bytes).
* The fallible IOKit bus primitives are an oracle (`Bus`) giving the status
  of each write cycle and the status/data of each read, indexed by the
  retry-attempt number; `time.sleep` has no observable effect and is dropped.
* Python dicts keyed by feature code become `Nat → Option Nat` maps
  (`none` = key absent, so a lookup of an absent key, a `KeyError` in
  Python, is an explicit error case).
-/

deriving instance DecidableEq for Except

namespace Pyddc

/-- `read_buffer_size = 11` in macos.py: expected size of a VCP feature reply. -/
def read_buffer_size : Nat := 11

/-- `KERN_SUCCESS = 0`, IOKit constant. -/
def KERN_SUCCESS : Int := 0

/-- `ARM64_DDC_DATA_ADDRESS = 0x51` in macos.py. -/
def ARM64_DDC_DATA_ADDRESS : Nat := 0x51

/-- `ARM64_DDC_7BIT_ADDRESS = 0x37` in macos.py. -/
def ARM64_DDC_7BIT_ADDRESS : Nat := 0x37

/-- `checksum(chk, data, start, end)` from macos.py:
`chkd = chk; for i in range(start, end + 1): chkd ^= data[i]; return chkd`.
`start`/`stop` are `Int` to keep Python's `range` semantics when
`end + 1 <= start` (empty loop); every call site uses `start = 0`. -/
def checksum (chk : Nat) (data : List Nat) (start stop : Int) : Nat :=
  (List.range (stop + 1 - start).toNat).foldl
    (fun c (k : Nat) => c ^^^ data.getD (start + (k : Int)).toNat 0) chk

/-- The checksum seed chosen in `performDDCCommunication` (macos.py line 116):
`ARM64_DDC_7BIT_ADDRESS << 1 if len(send) == 1 else
 ARM64_DDC_7BIT_ADDRESS << 1 ^ ARM64_DDC_DATA_ADDRESS`
(in Python `<<` binds tighter than `^`). -/
def sendChecksumSeed (send : List Nat) : Nat :=
  if send.length = 1 then ARM64_DDC_7BIT_ADDRESS <<< 1
  else (ARM64_DDC_7BIT_ADDRESS <<< 1) ^^^ ARM64_DDC_DATA_ADDRESS

/-- The packet built at the top of `performDDCCommunication` (macos.py
lines 110-117): `[0x80 | (len(send)+1), len(send)] + send + [0]`, then the
trailing placeholder `0` is overwritten (`packet[-1] = ...`) with
`checksum(seed, packet, 0, len(packet) - 2)`. -/
def encodePacket (send : List Nat) : List Nat :=
  let packet : List Nat := (0x80 ||| (send.length + 1)) :: send.length :: (send ++ [0])
  packet.dropLast ++ [checksum (sendChecksumSeed send) packet 0 ((packet.length : Int) - 2)]

/-- Reply validation from macos.py line 132:
`checksum(0x50, rep, 0, len(rep) - 2) == rep[-1]`. -/
def validateReply (rep : List Nat) : Bool :=
  checksum 0x50 rep 0 ((rep.length : Int) - 2) == rep.getD (rep.length - 1) 0

/-- Checksum comparison of a finished packet against its final byte with an
arbitrary seed: `checksum(seed, p, 0, len(p) - 2) == p[-1]`.  With seed
`0x50` this is exactly the reply validation of macos.py line 132
(`validateReply`); with the seed chosen by the encoder it expresses
self-consistency of an encoded request packet. -/
def validateWith (seed : Nat) (p : List Nat) : Bool :=
  checksum seed p 0 ((p.length : Int) - 2) == p.getD (p.length - 1) 0

/-- The reply-validation rule as worded by the spec sentence behind claim C2:
fold seed `0x50` over `reply[0..len-2)` (positions `0` through `len-3`) and
compare with the final byte.  Kept separate from `validateReply`, which is
the rule the source actually implements, so the two can be compared. -/
def validateReplySpecWording (rep : List Nat) : Bool :=
  (rep.take (rep.length - 2)).foldl (· ^^^ ·) 0x50 == rep.getD (rep.length - 1) 0

/-- Oracle for the fallible IOKit bus primitives, indexed by retry attempt
(0-based).  `writeStatus packet a c` is the return value of
`IOAVServiceWriteI2C` for the given packet on attempt `a`, write cycle
`c`; `readStatus a` / `readData a` are the
status and 11-byte buffer produced by `IOAVServiceReadI2C` on attempt `a`. -/
structure Bus where
  writeStatus : List Nat → Nat → Nat → Int
  readStatus : Nat → Int
  readData : Nat → List Nat

/-- The inner write loop of `performDDCCommunication` (lines 124-126):
`for _ in range(0, max(numOfWriteCycles, 1)): success = WriteI2C(...) == 0`.
The running flag is overwritten on every cycle, so for `cycles ≥ 1` the
result is the status of the final cycle alone. -/
def writeLoop (bus : Bus) (packet : List Nat) (attempt cycles : Nat) (s0 : Bool) : Bool :=
  (List.range cycles).foldl (fun _s c => bus.writeStatus packet attempt c == 0) s0

/-- The retry loop of `performDDCCommunication` (lines 121-139), one level of
recursion per iteration of `for _ in range(0, numOfRetryAttempts)`.
Carries the Python variables `success` and `rep` across iterations and, as
instrumentation, also returns how many attempts were executed before the
function returned (the Python code performs observable bus traffic per
attempt; the count makes early return provable). -/
def ddcLoop (bus : Bus) (packet : List Nat) (read_reply : Bool) (numOfWriteCycles : Nat) :
    Nat → Nat → Bool → List Nat → Bool × List Nat × Nat
  | _attempt, 0, success, rep => (success, rep, 0)
  | attempt, remaining + 1, success0, _rep0 =>
    let success := writeLoop bus packet attempt (max numOfWriteCycles 1) success0
    let rep : List Nat := []
    let step : Bool × List Nat :=
      if read_reply then
        let ret := bus.readStatus attempt
        let rep := bus.readData attempt
        (if ret == 0 then validateReply rep else success, rep)
      else (success, rep)
    if step.1 then (step.1, step.2, 1)
    else
      let r := ddcLoop bus packet read_reply numOfWriteCycles (attempt + 1) remaining step.1 step.2
      (r.1, r.2.1, r.2.2 + 1)

/-- `performDDCCommunication(ioavservice, send, read_reply, ...)` from
macos.py: encodes the packet and runs the retry loop starting from
`success = False`, `rep = []`.  The third component of the result is the
number of retry attempts actually executed (see `ddcLoop`). -/
def performDDCCommunication (bus : Bus) (send : List Nat) (read_reply : Bool)
    (numOfWriteCycles numOfRetryAttempts : Nat) : Bool × List Nat × Nat :=
  ddcLoop bus (encodePacket send) read_reply numOfWriteCycles 0 numOfRetryAttempts false []

/-- A node of the IORegistry device tree as observed by macos.py: its name
(with whether `IORegistryEntryGetName` succeeds), its `Location` property,
the `IOAVService` that `IOAVServiceCreateWithService` would yield for it
(`none` = NULL), and its `ProductName` display attribute. -/
structure Node where
  name : String
  nameOk : Bool
  location : Option String
  avService : Option Nat
  productName : Option String

/-- The `IOregService` dataclass of macos.py, restricted to the fields the
enumeration logic writes and the claims observe (every field defaults to
`None`; the remaining EDID/serial/transport fields are carried the same way
and never influence channel binding). -/
structure IOregService where
  productName : Option String := none
  location : Option String := none
  serviceLocation : Option Nat := none
  service : Option Nat := none
deriving DecidableEq

/-- Python substring test `needle in hay` on the underlying character
lists. -/
def listContains (needle : List Char) : List Char → Bool
  | [] => needle.isEmpty
  | c :: rest => needle.isPrefixOf (c :: rest) || listContains needle rest

/-- Python substring test `interest in name` for strings. -/
def strContains (hay needle : String) : Bool :=
  listContains needle.data hay.data

/-- `ioregIterateToNextObjectOfInterest(interests, iterator)` from macos.py:
advance the iterator (here: consume the list of remaining nodes) until a
node's name contains one of the interests, returning its name, the node
and the rest of the iterator; return `none` when the iterator is exhausted
or `IORegistryEntryGetName` fails.  (The `preceedingEntry` component of
the Python namedtuple is never used by the caller and is omitted.) -/
def ioregIterateToNextObjectOfInterest (interests : List String) :
    List Node → Option (String × Node × List Node)
  | [] => none
  | node :: rest =>
    if !node.nameOk then none
    else if interests.any (fun interest => strContains node.name interest) then
      some (node.name, node, rest)
    else ioregIterateToNextObjectOfInterest interests rest

/-- `getIORegServiceAppleCDC2Properties(entry)` from macos.py: build a fresh
`IOregService` from the framebuffer node's display attributes; the
`service` channel is left `None`. -/
def getIORegServiceAppleCDC2Properties (entry : Node) : IOregService :=
  { productName := entry.productName }

/-- `setIORegServiceDCPAVServiceProxy(entry, ioregService)` from macos.py:
record the proxy node's `Location` property when present, and only when it
equals `"External"` attach the channel created by
`IOAVServiceCreateWithService`. -/
def setIORegServiceDCPAVServiceProxy (entry : Node) (s : IOregService) : IOregService :=
  match entry.location with
  | none => s
  | some loc =>
    let s := { s with location := some loc }
    if loc = "External" then { s with service := entry.avService } else s

/-- `keyDCPAVServiceProxy` from macos.py. -/
def keyDCPAVServiceProxy : String := "DCPAVServiceProxy"

/-- `keysFramebuffer` from macos.py. -/
def keysFramebuffer : List String := ["AppleCLCD2", "IOMobileFramebufferShim"]

/-- The `while True` loop of `getIoregServicesForMatching` (macos.py lines
237-247), with the scan of `ioregIterateToNextObjectOfInterest` inlined so
the recursion is structural on the remaining iterator contents (the
bridging lemma `ioregMatchLoop_iterate` below recovers the source's shape,
where each round first iterates to the next object of interest): on a
framebuffer match start a new current service with the next sequential
`serviceLocation`; on a `DCPAVServiceProxy` match run the proxy binding on
the current service and append the result; a node that merely contains an
interest as a substring without being an exact key matches neither branch
and is skipped.  (Python appends an object reference; the pure model
appends the value at append time, which agrees whenever, as in the claims,
at most one proxy follows each framebuffer.) -/
def ioregMatchLoop (serviceLocation : Nat) (cur : IOregService)
    (acc : List IOregService) : List Node → List IOregService
  | [] => acc
  | node :: rest =>
    if !node.nameOk then acc
    else if (keyDCPAVServiceProxy :: keysFramebuffer).any
        (fun interest => strContains node.name interest) then
      if node.name ∈ keysFramebuffer then
        ioregMatchLoop (serviceLocation + 1)
          { getIORegServiceAppleCDC2Properties node with
            serviceLocation := some (serviceLocation + 1) } acc rest
      else if node.name = keyDCPAVServiceProxy then
        ioregMatchLoop serviceLocation (setIORegServiceDCPAVServiceProxy node cur)
          (acc ++ [setIORegServiceDCPAVServiceProxy node cur]) rest
      else ioregMatchLoop serviceLocation cur acc rest
    else ioregMatchLoop serviceLocation cur acc rest

/-- `getIoregServicesForMatching()` from macos.py, with the outcome of
`IORegistryEntryCreateIterator` (`createRet`, success = `KERN_SUCCESS`)
and the registry contents made explicit: if the iterator cannot be
created, the list collected so far (always still empty at that point) is
returned; otherwise the matching loop runs from a fresh `IOregService()`
and `serviceLocation = 0`. -/
def getIoregServicesForMatching (createRet : Int) (registry : List Node) :
    List IOregService :=
  if createRet ≠ KERN_SUCCESS then []
  else ioregMatchLoop 0 {} [] registry

/-- `ddc_displays = [d for d in displays if d.service is not None]`
(macos.py line 256). -/
def ddc_displays (createRet : Int) (registry : List Node) : List IOregService :=
  (getIoregServicesForMatching createRet registry).filter (fun d => d.service.isSome)

/-- An 11-byte reply whose checksum validates: nine zero data bytes, then a
final byte equal to the fold of the seed `0x50` over them. -/
def goodReply11 : List Nat := [0, 0, 0, 0, 0, 0, 0, 0, 0, 0, 0x50]

/-- An 11-byte reply whose checksum does not validate (all zero). -/
def badReply11 : List Nat := List.replicate 11 0

/-- A bus whose writes always succeed and whose reads always fail with
status 1 (buffer left empty). -/
def busReadFailure : Bus := ⟨fun _ _ _ => 0, fun _ => 1, fun _ => []⟩

/-- A bus whose writes succeed and whose reads succeed with a valid reply. -/
def busAlwaysValid : Bus := ⟨fun _ _ _ => 0, fun _ => 0, fun _ => goodReply11⟩

/-- A bus whose writes and reads succeed, but whose reply fails checksum
validation on attempts 1 and 2 (indices 0 and 1) and validates on attempt
3 (index 2). -/
def busThirdTry : Bus :=
  ⟨fun _ _ _ => 0, fun _ => 0, fun a => if a == 2 then goodReply11 else badReply11⟩

/-- A registry with one external framebuffer/proxy pair and one internal
panel: an `AppleCLCD2` framebuffer followed by a `DCPAVServiceProxy` whose
location is `"External"`, then a second framebuffer whose proxy reports
location `"Embedded"`. -/
def registryMixed : List Node :=
  [⟨"AppleCLCD2", true, none, none, some "LG"⟩,
   ⟨"DCPAVServiceProxy", true, some "External", some 7, none⟩,
   ⟨"AppleCLCD2", true, none, none, some "Internal"⟩,
   ⟨"DCPAVServiceProxy", true, some "Embedded", some 9, none⟩]

/-- The handle produced for the external display of `registryMixed`. -/
def externalHandle : IOregService :=
  { productName := some "LG", location := some "External",
    serviceLocation := some 1, service := some 7 }

end Pyddc

namespace MonitorBoss

/-- A `VCPCommand` descriptor as consumed by impl.py and vcp_dummy.py.
Modelled from the spec: the pyddc command registry (`get_vcp_com`,
`vcp_codes`) is not under src/; per spec §4.6 / §3 a command carries its
code, discrete/continuous kind and read/write-ability. -/
structure VCPCommand where
  code : Nat
  discrete : Bool
  readable : Bool
  writable : Bool
deriving DecidableEq

/-- Modelled from the spec: registry entry for luminance (code 16,
continuous, readable and writable). -/
def image_luminance_com : VCPCommand := ⟨16, false, true, true⟩

/-- Modelled from the spec: registry entry for contrast (code 18,
continuous, readable and writable). -/
def image_contrast_com : VCPCommand := ⟨18, false, true, true⟩

/-- Modelled from the spec: registry entry for input source (code 96,
discrete, readable and writable). -/
def input_source_com : VCPCommand := ⟨96, true, true, true⟩

/-- The `supported_codes` dict of vcp_dummy.py: `none` = unsupported code,
`some none` = continuous (dict value `None`), `some params` = discrete
with its parameter list. -/
def supported_codes (code : Nat) : Option (Option (List Nat)) :=
  if code = 4 then some (some [])
  else if code = 16 then some none
  else if code = 18 then some none
  else if code = 96 then some (some [27, 15, 17])
  else if code = 170 then some (some [1, 2, 4])
  else none

/-- The `unknown_max_values` dict of vcp_dummy.py (`{16: 80, 18: 100}`). -/
def unknown_max_values (code : Nat) : Option Nat :=
  if code = 16 then some 80 else if code = 18 then some 100 else none

/-- The mutable `current_values` dict of vcp_dummy.py, as a map from code to
current value. -/
abbrev VCPState := Nat → Option Nat

/-- The initial `current_values` dict of vcp_dummy.py:
`{16: 75, 18: 75, 96: 27, 170: 2}`. -/
def initial_current_values : VCPState := fun code =>
  if code = 16 then some 75 else if code = 18 then some 75
  else if code = 96 then some 27 else if code = 170 then some 2 else none

/-- The dict assignment `current_values[code] = value`. -/
def updateValue (st : VCPState) (code value : Nat) : VCPState :=
  fun c => if c = code then some value else st c

/-- Python exceptions that cross the dummy/impl boundary. -/
inductive PyError where
  | osError
  | valueError
  | keyError
  | typeError
deriving DecidableEq

/-- `DummyVCP._set_vcp_feature(com, value)` from vcp_dummy.py, with the
monitor state passed explicitly and, as instrumentation, the list of
`current_values` assignments (the dummy's stand-in for bus writes) that
were performed.  An unsupported code or a value outside a discrete
parameter set raises `OSError`; a continuous value above the declared
maximum raises `ValueError` before any assignment. -/
def dummy_set_vcp_feature (st : VCPState) (com : VCPCommand) (value : Nat) :
    Except PyError Unit × VCPState × List (Nat × Nat) :=
  match supported_codes com.code with
  | none => (.error .osError, st, [])
  | some none =>
    match unknown_max_values com.code with
    | none => (.error .keyError, st, [])
    | some maxv =>
      if value > maxv then (.error .valueError, st, [])
      else (.ok (), updateValue st com.code value, [(com.code, value)])
  | some (some params) =>
    if value ∈ params then (.ok (), updateValue st com.code value, [(com.code, value)])
    else (.error .osError, st, [])

/-- `DummyVCP._get_vcp_feature(com)` from vcp_dummy.py: unsupported code
raises `OSError`; a continuous command reads its declared maximum from
`unknown_max_values` (a missing key would raise `KeyError`), a discrete
command reports maximum 0; the current value is read from
`current_values` (missing key: `KeyError`). -/
def dummy_get_vcp_feature (st : VCPState) (com : VCPCommand) :
    Except PyError (Nat × Nat) :=
  match supported_codes com.code with
  | none => .error .osError
  | some _ =>
    match (if !com.discrete then unknown_max_values com.code else some 0), st com.code with
    | some maxv, some cur => .ok (cur, maxv)
    | _, _ => .error .keyError

/-- Modelled from the spec: `ABCVCP.set_vcp_feature` of pyddc is not under
src/; per spec §4.4 it fails for a non-writable command (impl.py maps that
`TypeError` to "not a writeable feature") and otherwise delegates to the
backend `_set_vcp_feature`. -/
def set_vcp_feature (st : VCPState) (com : VCPCommand) (value : Nat) :
    Except PyError Unit × VCPState × List (Nat × Nat) :=
  if !com.writable then (.error .typeError, st, [])
  else dummy_set_vcp_feature st com value

/-- Modelled from the spec: `ABCVCP.get_vcp_feature` of pyddc is not under
src/; per spec §4.4 it fails for a non-readable command (impl.py maps that
`TypeError` to "not a readable feature") and otherwise delegates to the
backend `_get_vcp_feature`. -/
def get_vcp_feature (st : VCPState) (com : VCPCommand) :
    Except PyError (Nat × Nat) :=
  if !com.readable then .error .typeError
  else dummy_get_vcp_feature st com

/-- The error kinds raised by impl.py (`MonitorBossError` with the quoted
messages) plus an `uncaught` case for Python exceptions that its
`except VCPError / TypeError / ValueError` clauses do not catch. -/
inductive MonitorBossError where
  | notReadable
  | notWritable
  | valueOutOfRange
  | couldNotGet
  | couldNotSet
  | uncaught (e : PyError)
deriving DecidableEq

/-- `get_attribute(mon, attr, timeout)` from impl.py lines 78-88: returns
the `(value, max)` pair from `get_vcp_feature`; `TypeError` becomes the
"not a readable feature" error. -/
def get_attribute (st : VCPState) (com : VCPCommand) :
    Except MonitorBossError (Nat × Nat) :=
  match get_vcp_feature st com with
  | .ok v => .ok v
  | .error .typeError => .error .notReadable
  | .error e => .error (.uncaught e)

/-- `set_attribute(mon, attr, val, timeout)` from impl.py lines 91-103:
calls `set_vcp_feature`; `TypeError` becomes "not a writeable feature",
`ValueError` becomes "Provided value ... is above the max"
(`valueOutOfRange`); on success it returns `val` itself (the code's TODO
notes that no read-back is performed). -/
def set_attribute (st : VCPState) (com : VCPCommand) (val : Nat) :
    Except MonitorBossError Nat × VCPState × List (Nat × Nat) :=
  match set_vcp_feature st com val with
  | (.ok _, st2, ws) => (.ok val, st2, ws)
  | (.error .typeError, st2, ws) => (.error .notWritable, st2, ws)
  | (.error .valueError, st2, ws) => (.error .valueOutOfRange, st2, ws)
  | (.error e, st2, ws) => (.error (.uncaught e), st2, ws)

/-- The `ToggledAttribute` dataclass of impl.py. -/
structure ToggledAttribute where
  old : Nat
  new : Nat
deriving DecidableEq

/-- `toggle_attribute(mon, attr, val1, val2, timeout)` from impl.py lines
112-117: read the current value, choose `val2` if it equals `val1` and
`val1` otherwise, set it, and return both; errors of either step
propagate. -/
def toggle_attribute (st : VCPState) (com : VCPCommand) (val1 val2 : Nat) :
    Except MonitorBossError ToggledAttribute × VCPState × List (Nat × Nat) :=
  match get_attribute st com with
  | .error e => (.error e, st, [])
  | .ok (cur_val, _maxv) =>
    let new_val := if cur_val = val1 then val2 else val1
    match set_attribute st com new_val with
    | (.ok _, st2, ws) => (.ok ⟨cur_val, new_val⟩, st2, ws)
    | (.error e, st2, ws) => (.error e, st2, ws)

/-- The acceptance condition of `DummyVCP._set_vcp_feature`: the code is
supported and the value is within the declared maximum (continuous) or the
parameter set (discrete). -/
def setAccepts (code v : Nat) : Bool :=
  match supported_codes code with
  | none => false
  | some none =>
    match unknown_max_values code with
    | none => false
    | some m => decide (v ≤ m)
  | some (some params) => decide (v ∈ params)

end MonitorBoss

namespace Pyddc

theorem xor_left_comm (a b c : Nat) : a ^^^ (b ^^^ c) = b ^^^ (a ^^^ c) := by
  rw [← Nat.xor_assoc, Nat.xor_comm a b, Nat.xor_assoc]

theorem foldl_xor_shift (l : List Nat) : ∀ c : Nat,
    l.foldl (· ^^^ ·) c = c ^^^ l.foldl (· ^^^ ·) 0 := by
  induction l with
  | nil => intro c; simp
  | cons x t ih =>
    intro c
    simp only [List.foldl_cons]
    rw [ih (c ^^^ x), ih (0 ^^^ x), Nat.zero_xor, Nat.xor_assoc]

theorem foldl_xor_set (v c : Nat) :
    ∀ (l : List Nat) (i : Nat), i < l.length →
      (l.set i v).foldl (· ^^^ ·) c = (l.foldl (· ^^^ ·) c) ^^^ (l.getD i 0) ^^^ v := by
  intro l
  induction l generalizing c with
  | nil => intro i hi; simp at hi
  | cons x t ih =>
    intro i hi
    cases i with
    | zero =>
      simp only [List.set_cons_zero, List.foldl_cons, List.getD_cons_zero]
      rw [foldl_xor_shift t (c ^^^ v), foldl_xor_shift t (c ^^^ x)]
      rw [Nat.xor_assoc ((c ^^^ x) ^^^ t.foldl (· ^^^ ·) 0) x v]
      rw [Nat.xor_assoc (c ^^^ x) (t.foldl (· ^^^ ·) 0) (x ^^^ v)]
      rw [xor_left_comm (t.foldl (· ^^^ ·) 0) x v]
      rw [Nat.xor_assoc c x (x ^^^ (t.foldl (· ^^^ ·) 0 ^^^ v))]
      rw [Nat.xor_cancel_left x (t.foldl (· ^^^ ·) 0 ^^^ v)]
      rw [← Nat.xor_assoc c (t.foldl (· ^^^ ·) 0) v]
      rw [Nat.xor_assoc c v (t.foldl (· ^^^ ·) 0)]
      rw [Nat.xor_comm v (t.foldl (· ^^^ ·) 0)]
      rw [← Nat.xor_assoc c (t.foldl (· ^^^ ·) 0) v]
    | succ i =>
      simp only [List.set_cons_succ, List.foldl_cons, List.getD_cons_succ]
      exact ih (c ^^^ x) i (Nat.lt_of_succ_lt_succ hi)

theorem range_foldl_xor_eq_take (p : List Nat) :
    ∀ (m : Nat) (c : Nat), m ≤ p.length →
      (List.range m).foldl (fun a k => a ^^^ p.getD k 0) c =
        (p.take m).foldl (· ^^^ ·) c := by
  intro m
  induction m with
  | zero => intro c _; simp
  | succ m ih =>
    intro c hm
    have hlt : m < p.length := hm
    rw [List.range_succ, List.foldl_append, List.take_succ, List.foldl_append]
    rw [ih c (Nat.le_of_succ_le hm)]
    rw [List.getElem?_eq_getElem hlt]
    simp [List.getD_eq_getElem?_getD, List.getElem?_eq_getElem hlt]

theorem checksum_eq_foldl_take (c : Nat) (p : List Nat) :
    checksum c p 0 ((p.length : Int) - 2) = (p.take (p.length - 1)).foldl (· ^^^ ·) c := by
  unfold checksum
  cases hp : p.length with
  | zero =>
    have : p = [] := List.length_eq_zero.mp hp
    subst this
    simp
  | succ n =>
    have h1 : (((n + 1 : Nat) : Int) - 2 + 1 - 0).toNat = n := by omega
    have h2 : (n + 1) - 1 = n := rfl
    rw [h1, h2]
    have h3 : ∀ k : Nat, ((0 : Int) + (k : Int)).toNat = k := by intro k; omega
    simp only [h3]
    exact range_foldl_xor_eq_take p n c (by omega)

theorem validateWith_eq_foldl (seed : Nat) (p : List Nat) :
    validateWith seed p =
      ((p.take (p.length - 1)).foldl (· ^^^ ·) seed == p.getD (p.length - 1) 0) := by
  unfold validateWith
  rw [checksum_eq_foldl_take]

theorem dropLast_checksum_build (core : List Nat) (seed : Nat) :
    (core ++ [0]).dropLast ++
        [checksum seed (core ++ [0]) 0 (((core ++ [0]).length : Int) - 2)] =
      core ++ [core.foldl (· ^^^ ·) seed] := by
  rw [List.dropLast_concat, checksum_eq_foldl_take]
  have h1 : (core ++ [0]).length - 1 = core.length := by simp
  rw [h1, List.take_left]

theorem encodePacket_eq (send : List Nat) :
    encodePacket send =
      ((0x80 ||| (send.length + 1)) :: send.length :: send) ++
        [((0x80 ||| (send.length + 1)) :: send.length :: send).foldl (· ^^^ ·)
          (sendChecksumSeed send)] := by
  have h := dropLast_checksum_build
      ((0x80 ||| (send.length + 1)) :: send.length :: send) (sendChecksumSeed send)
  simpa [encodePacket] using h

end Pyddc

namespace Pyddc

theorem getD_concat_length (l : List Nat) (a : Nat) : (l ++ [a]).getD l.length 0 = a := by
  simp [List.getD_eq_getElem?_getD, List.getElem?_concat_length]

theorem getD_append_left (l l2 : List Nat) (i : Nat) (h : i < l.length) :
    (l ++ l2).getD i 0 = l.getD i 0 := by
  simp [List.getD_eq_getElem?_getD, List.getElem?_append, h]

/-- Claim C2, counterexample: for the 11-byte reply
`[0,0,0,0,0,0,0,0,0,1,0x50]` the rule claimed by the spec (fold seed `0x50`
over positions `0` through `len-3`) accepts, but the program's validation
(macos.py line 132) rejects, so the claimed acceptance condition is not the
implemented one. -/
theorem claim_C2_counterexample :
    validateReplySpecWording [0, 0, 0, 0, 0, 0, 0, 0, 0, 1, 0x50] = true ∧
    validateReply [0, 0, 0, 0, 0, 0, 0, 0, 0, 1, 0x50] = false := by decide

/-- Claim C2 (amended): for every reply buffer of length `len`, validation
recomputes the XOR fold with seed `0x50` over the bytes `reply[0..len-1)` —
positions `0` through `len-2`, i.e. every byte before the final one — and
accepts the reply if and only if the fold equals the final byte
`reply[len-1]`. -/
theorem claim_C2_amended (rep : List Nat) :
    validateReply rep =
      ((rep.take (rep.length - 1)).foldl (· ^^^ ·) 0x50 == rep.getD (rep.length - 1) 0) :=
  validateWith_eq_foldl 0x50 rep

/-- Claim C4: for every payload of length `n ≥ 1` the encoded packet is
exactly `[0x80|(n+1), n, payload bytes, checksum]`, where the checksum is
the XOR fold, over packet positions `0` through `length-2` (the packet with
its final byte dropped), of a seed equal to `sourceAddress<<1` when `n = 1`
and `(sourceAddress<<1) XOR dataAddress` when `n ≥ 2`. -/
theorem claim_C4 (send : List Nat) (h : 1 ≤ send.length) :
    encodePacket send =
      (0x80 ||| (send.length + 1)) :: send.length :: send ++
        [((encodePacket send).take ((encodePacket send).length - 1)).foldl (· ^^^ ·)
          (if send.length = 1 then ARM64_DDC_7BIT_ADDRESS <<< 1
           else (ARM64_DDC_7BIT_ADDRESS <<< 1) ^^^ ARM64_DDC_DATA_ADDRESS)] := by
  have he := encodePacket_eq send
  rw [he]
  have h1 : ((((0x80 ||| (send.length + 1)) :: send.length :: send) ++
      [((0x80 ||| (send.length + 1)) :: send.length :: send).foldl (· ^^^ ·)
        (sendChecksumSeed send)]).length) - 1 =
      ((0x80 ||| (send.length + 1)) :: send.length :: send).length := by simp
  rw [h1, List.take_left]
  rfl

/-- Witness for claim C4 at the 1-byte read payload `[0x01]`. -/
theorem claim_C4_witness :
    1 ≤ ([1] : List Nat).length ∧ encodePacket [1] = [0x82, 1, 1, 0xEC] :=
  ⟨by decide, claim_C4 [1] (by decide)⟩

/-- Claim C3, counterexample: the program's only validation of a packet is
the reply check with seed `0x50` (macos.py line 132), and it rejects the
packet `encode` produces for the valid 1-byte read payload `[0x01]`,
because request packets are checksummed with a different seed; so
`validate(encode(payload))` does not succeed. -/
theorem claim_C3_counterexample : validateReply (encodePacket [0x01]) = false := by
  decide

/-- Claim C3 (amended): recomputing the packet checksum with the same seed
the encoder chose succeeds for every payload, and changing any single
non-checksum byte of the encoded packet makes that check reject; the
program's reply validation (seed `0x50`) instead rejects every encoded
request packet, since requests are checksummed with a different seed. -/
theorem claim_C3_amended (send : List Nat) (i v : Nat)
    (hi : i < (encodePacket send).length - 1)
    (hv : v ≠ (encodePacket send).getD i 0) :
    validateWith (sendChecksumSeed send) (encodePacket send) = true ∧
    validateWith (sendChecksumSeed send) ((encodePacket send).set i v) = false ∧
    validateReply (encodePacket send) = false := by
  have he := encodePacket_eq send
  set core : List Nat := (0x80 ||| (send.length + 1)) :: send.length :: send with hcore
  set seed : Nat := sendChecksumSeed send with hseed
  set chk : Nat := core.foldl (· ^^^ ·) seed with hchk
  have hplen : (core ++ [chk]).length = core.length + 1 := by simp
  have htake : (core ++ [chk]).take ((core ++ [chk]).length - 1) = core := by
    rw [hplen]
    simpa using List.take_left core [chk]
  have hlast : (core ++ [chk]).getD ((core ++ [chk]).length - 1) 0 = chk := by
    rw [hplen]
    simpa using getD_concat_length core chk
  have hicore : i < core.length := by
    rw [he, hplen] at hi
    simpa using hi
  refine ⟨?_, ?_, ?_⟩
  · rw [he, validateWith_eq_foldl, htake, hlast, ← hchk]
    exact beq_self_eq_true chk
  · rw [he, validateWith_eq_foldl]
    have hslen : ((core ++ [chk]).set i v).length = (core ++ [chk]).length :=
      List.length_set _ _ _
    rw [hslen, hplen]
    have htake2 : ((core ++ [chk]).set i v).take (core.length + 1 - 1) = core.set i v := by
      rw [List.set_take]
      have : (core ++ [chk]).take (core.length + 1 - 1) = core := by
        simpa using List.take_left core [chk]
      rw [this]
    have hne : i ≠ core.length := Nat.ne_of_lt hicore
    have hlast2 : ((core ++ [chk]).set i v).getD (core.length + 1 - 1) 0 = chk := by
      have h9 : ((core ++ [chk]).set i v).getD core.length 0 =
          (core ++ [chk]).getD core.length 0 := by
        simp [List.getD_eq_getElem?_getD, List.getElem?_set_ne hne]
      have h10 := getD_concat_length core chk
      simp only [Nat.add_sub_cancel]
      rw [h9, h10]
    rw [htake2, hlast2]
    have hold : (core.set i v).foldl (· ^^^ ·) seed = chk ^^^ (core.getD i 0 ^^^ v) := by
      rw [foldl_xor_set v seed core i hicore, ← hchk, Nat.xor_assoc]
    rw [hold]
    have hvold : v ≠ core.getD i 0 := by
      rw [he] at hv
      rwa [getD_append_left core [chk] i hicore] at hv
    have hneq : chk ^^^ (core.getD i 0 ^^^ v) ≠ chk := by
      intro hcontra
      have h0 : chk ^^^ (core.getD i 0 ^^^ v) = chk ^^^ 0 := by
        rw [hcontra, Nat.xor_zero]
      have h1 := Nat.xor_right_inj.mp h0
      exact hvold (Nat.xor_eq_zero.mp h1).symm
    simpa using hneq
  · have hr : validateReply (encodePacket send) = validateWith 0x50 (encodePacket send) := rfl
    rw [hr, he, validateWith_eq_foldl, htake, hlast]
    rw [foldl_xor_shift core 0x50, hchk, foldl_xor_shift core seed]
    have hseedne : (0x50 : Nat) ≠ seed := by
      rw [hseed]
      unfold sendChecksumSeed
      split <;> decide
    have : (0x50 : Nat) ^^^ core.foldl (· ^^^ ·) 0 ≠ seed ^^^ core.foldl (· ^^^ ·) 0 := by
      intro hcontra
      exact hseedne (Nat.xor_left_inj.mp hcontra)
    simpa using this

/-- Witness for the amended claim C3: payload `[0x01]`, flipping byte 2
(a payload byte) to `0x63`. -/
theorem claim_C3_amended_witness :
    (2 < (encodePacket [1]).length - 1 ∧ (0x63 : Nat) ≠ (encodePacket [1]).getD 2 0) ∧
    (validateWith (sendChecksumSeed [1]) (encodePacket [1]) = true ∧
     validateWith (sendChecksumSeed [1]) ((encodePacket [1]).set 2 0x63) = false ∧
     validateReply (encodePacket [1]) = false) :=
  ⟨⟨by decide, by decide⟩, claim_C3_amended [1] 2 0x63 (by decide) (by decide)⟩

end Pyddc

namespace Pyddc

theorem writeLoop_last (bus : Bus) (packet : List Nat) (attempt m : Nat) (s0 : Bool) :
    writeLoop bus packet attempt (m + 1) s0 = (bus.writeStatus packet attempt m == 0) := by
  simp [writeLoop, List.range_succ]

theorem ddcLoop_succ (bus : Bus) (packet : List Nat) (wc attempt remaining : Nat)
    (s0 : Bool) (rep0 : List Nat) :
    ddcLoop bus packet true wc attempt (remaining + 1) s0 rep0 =
      (if (if bus.readStatus attempt == 0
           then validateReply (bus.readData attempt)
           else writeLoop bus packet attempt (max wc 1) s0)
       then ((if bus.readStatus attempt == 0
              then validateReply (bus.readData attempt)
              else writeLoop bus packet attempt (max wc 1) s0),
             bus.readData attempt, 1)
       else
         ((ddcLoop bus packet true wc (attempt + 1) remaining
             (if bus.readStatus attempt == 0
              then validateReply (bus.readData attempt)
              else writeLoop bus packet attempt (max wc 1) s0)
             (bus.readData attempt)).1,
          (ddcLoop bus packet true wc (attempt + 1) remaining
             (if bus.readStatus attempt == 0
              then validateReply (bus.readData attempt)
              else writeLoop bus packet attempt (max wc 1) s0)
             (bus.readData attempt)).2.1,
          (ddcLoop bus packet true wc (attempt + 1) remaining
             (if bus.readStatus attempt == 0
              then validateReply (bus.readData attempt)
              else writeLoop bus packet attempt (max wc 1) s0)
             (bus.readData attempt)).2.2 + 1)) := rfl

theorem ddcLoop_success_spec (bus : Bus) (packet : List Nat) (wc : Nat) :
    ∀ (remaining attempt : Nat) (rep0 rep : List Nat) (k : Nat),
      ddcLoop bus packet true wc attempt remaining false rep0 = (true, rep, k) →
      1 ≤ k ∧ k ≤ remaining ∧ rep = bus.readData (attempt + k - 1) ∧
        (if bus.readStatus (attempt + k - 1) = 0
         then validateReply rep = true
         else bus.writeStatus packet (attempt + k - 1) (max wc 1 - 1) = 0) := by
  intro remaining
  induction remaining with
  | zero =>
    intro attempt rep0 rep k h
    rw [ddcLoop] at h
    simp at h
  | succ remaining ih =>
    intro attempt rep0 rep k h
    rw [ddcLoop_succ] at h
    set cond := (if bus.readStatus attempt == 0
        then validateReply (bus.readData attempt)
        else writeLoop bus packet attempt (max wc 1) false) with hcond
    by_cases hc : cond = true
    · rw [hc] at h
      simp at h
      obtain ⟨hrep, hk⟩ := h
      have hidx : attempt + k - 1 = attempt := by omega
      refine ⟨by omega, by omega, ?_, ?_⟩
      · rw [hidx]
        exact hrep.symm
      · rw [hidx]
        by_cases hr : bus.readStatus attempt = 0
        · rw [if_pos hr]
          rw [hcond, hr] at hc
          simp at hc
          rw [hrep] at hc
          exact hc
        · rw [if_neg hr]
          have hbeq : (bus.readStatus attempt == 0) = false := by
            simpa using hr
          rw [hcond, hbeq] at hc
          simp at hc
          have hmax : max wc 1 = (max wc 1 - 1) + 1 := by
            have := Nat.le_max_right wc 1
            omega
          rw [hmax, writeLoop_last] at hc
          simpa using hc
    · have hcf : cond = false := by
        cases hcb : cond
        · rfl
        · exact absurd hcb hc
      rw [hcf] at h
      simp at h
      obtain ⟨h1, h2, h3⟩ := h
      set r := ddcLoop bus packet true wc (attempt + 1) remaining false (bus.readData attempt)
        with hr
      have hrun : ddcLoop bus packet true wc (attempt + 1) remaining false (bus.readData attempt)
          = (true, rep, r.2.2) := by
        have heta : r = (r.1, r.2.1, r.2.2) := rfl
        rw [h1, h2] at heta
        rw [← hr]
        exact heta
      obtain ⟨ih1, ih2, ih3, ih4⟩ := ih (attempt + 1) (bus.readData attempt) rep r.2.2 hrun
      have hidx : attempt + 1 + r.2.2 - 1 = attempt + k - 1 := by omega
      rw [hidx] at ih3 ih4
      exact ⟨by omega, by omega, ih3, ih4⟩

end Pyddc

namespace Pyddc

/-- Claim C1, counterexample: on a bus whose writes all succeed but whose
read call fails (nonzero status, empty buffer), the exchange with
expect_reply=true still returns success=true — the failed read leaves the
write's success flag in place (macos.py lines 130-132 only overwrite
`success` when the read status is 0) — so a failed read does yield a
successful result. -/
theorem claim_C1_counterexample :
    (performDDCCommunication busReadFailure [1] true 2 4).1 = true ∧
    busReadFailure.readStatus 0 ≠ 0 := by decide

/-- Claim C1 (amended): when an exchange with expect_reply=true returns
success after k attempts, the reply is attempt k's read buffer, and on that
attempt either the read returned status 0 and its 11-byte checksum
validated, or the read call itself failed (nonzero status) and the final
bus write of the attempt had succeeded.  A failed write can thus still be
followed by a successful result when the read validates, and a failed read
does not clear a successful write's flag. -/
theorem claim_C1_amended (bus : Bus) (send : List Nat) (wc rc : Nat)
    (rep : List Nat) (k : Nat)
    (h : performDDCCommunication bus send true wc rc = (true, rep, k)) :
    1 ≤ k ∧ k ≤ rc ∧ rep = bus.readData (k - 1) ∧
      (if bus.readStatus (k - 1) = 0
       then validateReply rep = true
       else bus.writeStatus (encodePacket send) (k - 1) (max wc 1 - 1) = 0) := by
  have hspec := ddcLoop_success_spec bus (encodePacket send) wc rc 0 [] rep k h
  simpa using hspec

/-- Witness for the amended claim C1: a bus whose first read succeeds with a
valid reply makes the exchange succeed on attempt 1. -/
theorem claim_C1_amended_witness :
    performDDCCommunication busAlwaysValid [1] true 2 4 = (true, goodReply11, 1) ∧
    (1 ≤ 1 ∧ 1 ≤ 4 ∧ goodReply11 = busAlwaysValid.readData 0 ∧
      (if busAlwaysValid.readStatus 0 = 0
       then validateReply goodReply11 = true
       else busAlwaysValid.writeStatus (encodePacket [1]) 0 (max 2 1 - 1) = 0)) :=
  ⟨by decide, claim_C1_amended busAlwaysValid [1] 2 4 goodReply11 1 (by decide)⟩

/-- Claim C5: with retry_attempts = 4, if the reads succeed with 11-byte
buffers but checksum validation fails on attempts 1 and 2 and succeeds on
attempt 3, the exchange returns success paired with attempt 3's reply
(not an earlier one) and executes exactly 3 attempts — no fourth attempt
is performed (the third result component counts executed attempts). -/
theorem claim_C5 (bus : Bus) (send : List Nat) (wc : Nat)
    (hs0 : bus.readStatus 0 = 0) (hs1 : bus.readStatus 1 = 0) (hs2 : bus.readStatus 2 = 0)
    (hl0 : (bus.readData 0).length = 11) (hl1 : (bus.readData 1).length = 11)
    (hl2 : (bus.readData 2).length = 11)
    (hv0 : validateReply (bus.readData 0) = false)
    (hv1 : validateReply (bus.readData 1) = false)
    (hv2 : validateReply (bus.readData 2) = true) :
    performDDCCommunication bus send true wc 4 = (true, bus.readData 2, 3) := by
  unfold performDDCCommunication
  have hc0 : (if bus.readStatus 0 == 0 then validateReply (bus.readData 0)
      else writeLoop bus (encodePacket send) 0 (max wc 1) false) = false := by
    rw [hs0]
    simpa using hv0
  have hc1 : (if bus.readStatus 1 == 0 then validateReply (bus.readData 1)
      else writeLoop bus (encodePacket send) 1 (max wc 1) false) = false := by
    rw [hs1]
    simpa using hv1
  have hc2 : (if bus.readStatus 2 == 0 then validateReply (bus.readData 2)
      else writeLoop bus (encodePacket send) 2 (max wc 1) false) = true := by
    rw [hs2]
    simpa using hv2
  rw [show (4 : Nat) = 3 + 1 from rfl, ddcLoop_succ, hc0]
  simp only [Bool.false_eq_true, if_false]
  rw [show (3 : Nat) = 2 + 1 from rfl, ddcLoop_succ, hc1]
  simp only [Bool.false_eq_true, if_false]
  rw [show (2 : Nat) = 1 + 1 from rfl, ddcLoop_succ, hc2]
  simp

/-- Witness for claim C5: the bus that fails validation twice and then
returns a valid reply on attempt 3. -/
theorem claim_C5_witness :
    performDDCCommunication busThirdTry [1] true 2 4 = (true, busThirdTry.readData 2, 3) :=
  claim_C5 busThirdTry [1] 2 (by decide) (by decide) (by decide) (by decide) (by decide)
    (by decide) (by decide) (by decide) (by decide)

end Pyddc

namespace Pyddc

theorem ioregMatchLoop_iterate (serviceLocation : Nat) (cur : IOregService)
    (acc : List IOregService) :
    ∀ iter : List Node,
      ioregMatchLoop serviceLocation cur acc iter =
        match ioregIterateToNextObjectOfInterest
            (keyDCPAVServiceProxy :: keysFramebuffer) iter with
        | none => acc
        | some (name, entry, rest) =>
          if name ∈ keysFramebuffer then
            ioregMatchLoop (serviceLocation + 1)
              { getIORegServiceAppleCDC2Properties entry with
                serviceLocation := some (serviceLocation + 1) } acc rest
          else if name = keyDCPAVServiceProxy then
            ioregMatchLoop serviceLocation (setIORegServiceDCPAVServiceProxy entry cur)
              (acc ++ [setIORegServiceDCPAVServiceProxy entry cur]) rest
          else ioregMatchLoop serviceLocation cur acc rest
  | [] => rfl
  | node :: rest => by
    rw [ioregMatchLoop, ioregIterateToNextObjectOfInterest]
    by_cases hok : node.nameOk
    · simp only [hok, Bool.not_true, Bool.false_eq_true, if_false, if_true]
      by_cases hm : (keyDCPAVServiceProxy :: keysFramebuffer).any
          (fun interest => strContains node.name interest)
      · simp [hm]
      · simp only [hm, Bool.false_eq_true, if_false]
        exact ioregMatchLoop_iterate serviceLocation cur acc rest
    · simp [hok]

/-- Claim C6: during enumeration a communication channel is attached (by the
proxy-binding step, which always acts on the loop's current — most recently
started — handle) only when the proxy node's Location property equals
"External"; and every handle in the returned display list `ddc_displays`
has a non-null channel. -/
theorem claim_C6 :
    (∀ (createRet : Int) (registry : List Node) (d : IOregService),
        d ∈ ddc_displays createRet registry → d.service ≠ none) ∧
    (∀ (entry : Node) (s : IOregService),
        (setIORegServiceDCPAVServiceProxy entry s).service ≠ s.service →
        entry.location = some "External") := by
  constructor
  · intro createRet registry d hd
    unfold ddc_displays at hd
    have hmem := List.of_mem_filter hd
    simpa [Option.isSome_iff_ne_none] using hmem
  · intro entry s hch
    unfold setIORegServiceDCPAVServiceProxy at hch
    cases hloc : entry.location with
    | none =>
      rw [hloc] at hch
      exact absurd rfl hch
    | some loc =>
      rw [hloc] at hch
      by_cases hExt : loc = "External"
      · rw [hExt]
      · simp [hExt] at hch

/-- Witness for claim C6: on `registryMixed`, the single returned handle is
the external one and carries a channel; the external proxy triggers an
attachment and indeed has location "External". -/
theorem claim_C6_witness :
    externalHandle.service ≠ none ∧
    (⟨"DCPAVServiceProxy", true, some "External", some 7, none⟩ : Node).location =
      some "External" :=
  ⟨claim_C6.1 0 registryMixed externalHandle (by decide),
   claim_C6.2 ⟨"DCPAVServiceProxy", true, some "External", some 7, none⟩ {} (by decide)⟩

/-- Claim C9: if the registry iterator cannot be opened (creation returns a
status other than KERN_SUCCESS), enumeration returns the handles gathered
so far — none, since the iterator is created before any gathering — as an
ordinary (shorter) list rather than raising an error. -/
theorem claim_C9 (createRet : Int) (registry : List Node)
    (h : createRet ≠ KERN_SUCCESS) :
    getIoregServicesForMatching createRet registry = [] ∧
    (getIoregServicesForMatching createRet registry).length ≤
      (getIoregServicesForMatching KERN_SUCCESS registry).length := by
  have he : getIoregServicesForMatching createRet registry = [] := by
    unfold getIoregServicesForMatching
    simp [h]
  refine ⟨he, ?_⟩
  rw [he]
  simp

/-- Witness for claim C9 with failing status 1 on `registryMixed` (which
yields one handle when the iterator opens). -/
theorem claim_C9_witness :
    (1 : Int) ≠ KERN_SUCCESS ∧
    getIoregServicesForMatching 1 registryMixed = [] ∧
    (getIoregServicesForMatching 1 registryMixed).length ≤
      (getIoregServicesForMatching KERN_SUCCESS registryMixed).length :=
  ⟨by decide, claim_C9 1 registryMixed (by decide)⟩

end Pyddc

namespace MonitorBoss

theorem set_vcp_feature_accepts (st : VCPState) (com : VCPCommand) (v : Nat)
    (hw : com.writable = true) (hacc : setAccepts com.code v = true) :
    set_vcp_feature st com v = (.ok (), updateValue st com.code v, [(com.code, v)]) := by
  unfold set_vcp_feature
  rw [hw]
  simp only [Bool.not_true, Bool.false_eq_true, if_false]
  unfold dummy_set_vcp_feature
  unfold setAccepts at hacc
  cases hsc : supported_codes com.code with
  | none =>
    rw [hsc] at hacc
    simp at hacc
  | some sc =>
    rw [hsc] at hacc
    cases sc with
    | none =>
      cases hmv : unknown_max_values com.code with
      | none =>
        rw [hmv] at hacc
        simp at hacc
      | some m =>
        rw [hmv] at hacc
        simp only [decide_eq_true_eq] at hacc
        have hng : ¬ v > m := by omega
        simp [hng]
    | some params =>
      simp only [decide_eq_true_eq] at hacc
      simp [hacc]

theorem get_attribute_update (st : VCPState) (com : VCPCommand) (cur maxv v : Nat)
    (h : get_attribute st com = .ok (cur, maxv)) :
    get_attribute (updateValue st com.code v) com = .ok (v, maxv) := by
  unfold get_attribute get_vcp_feature at h ⊢
  cases hrb : com.readable with
  | false =>
    rw [hrb] at h
    simp at h
  | true =>
    rw [hrb] at h
    simp only [Bool.not_true, Bool.false_eq_true, if_false] at h ⊢
    unfold dummy_get_vcp_feature at h ⊢
    cases hsc : supported_codes com.code with
    | none =>
      rw [hsc] at h
      simp at h
    | some sc =>
      rw [hsc] at h
      cases hmv : (if !com.discrete then unknown_max_values com.code else some 0) with
      | none =>
        rw [hmv] at h
        cases hst : st com.code <;> · rw [hst] at h; simp at h
      | some m =>
        rw [hmv] at h
        cases hst : st com.code with
        | none =>
          rw [hst] at h
          simp at h
        | some c =>
          rw [hst] at h
          simp only [Except.ok.injEq, Prod.mk.injEq] at h
          have hupd : updateValue st com.code v com.code = some v := by
            unfold updateValue
            simp
          rw [hupd]
          rw [h.2]

/-- Claim C10: whenever `set_attribute` succeeds, the value it returns is
exactly the `val` argument the caller supplied — the implementation
performs no read-back of the feature after the write (impl.py line 103,
with the TODO noting the missing getter), so the reported new value is
taken from the request, not from the monitor. -/
theorem claim_C10 (st : VCPState) (com : VCPCommand) (val r : Nat)
    (st2 : VCPState) (ws : List (Nat × Nat))
    (h : set_attribute st com val = (.ok r, st2, ws)) :
    r = val := by
  unfold set_attribute at h
  cases hv : set_vcp_feature st com val with
  | mk res rest =>
    rw [hv] at h
    cases res with
    | ok u =>
      simp at h
      exact h.1.symm
    | error e =>
      cases e <;> simp at h

/-- Witness for claim C10: a successful luminance write of 50 reports 50. -/
theorem claim_C10_witness :
    set_attribute initial_current_values image_luminance_com 50 =
      (.ok 50, updateValue initial_current_values 16 50, [(16, 50)]) ∧ (50 : Nat) = 50 :=
  ⟨rfl, claim_C10 initial_current_values image_luminance_com 50 50
      (updateValue initial_current_values 16 50) [(16, 50)] rfl⟩

/-- Claim C7: for a continuous feature with declared maximum M (in the dummy
monitor, luminance code 16 declares M = 80 and contrast code 18 declares
M = 100) and any value v > M, `set_attribute` fails with the
value-out-of-range error, performs no write, and leaves the monitor state
unchanged (the returned state is the input state and the write trace is
empty). -/
theorem claim_C7 (st : VCPState) (com : VCPCommand) (M v : Nat)
    (hw : com.writable = true)
    (hcont : supported_codes com.code = some none)
    (hmax : unknown_max_values com.code = some M)
    (hv : v > M) :
    set_attribute st com v = (.error .valueOutOfRange, st, []) := by
  have hset : set_vcp_feature st com v = (.error .valueError, st, []) := by
    unfold set_vcp_feature
    rw [hw]
    simp only [Bool.not_true, Bool.false_eq_true, if_false]
    unfold dummy_set_vcp_feature
    rw [hcont, hmax]
    simp [hv]
  unfold set_attribute
  rw [hset]

/-- Witness for claim C7: the spec's example, `set_feature(h, 16, 200)` on
the dummy monitor (declared maximum 80 for code 16). -/
theorem claim_C7_witness :
    (200 > 80) ∧
    set_attribute initial_current_values image_luminance_com 200 =
      (.error .valueOutOfRange, initial_current_values, []) :=
  ⟨by decide,
   claim_C7 initial_current_values image_luminance_com 80 200 rfl rfl rfl (by decide)⟩

theorem toggle_attribute_eq (st : VCPState) (com : VCPCommand) (a b cur maxv : Nat)
    (hw : com.writable = true)
    (hget : get_attribute st com = .ok (cur, maxv))
    (hacc : setAccepts com.code (if cur = a then b else a) = true) :
    toggle_attribute st com a b =
      (.ok ⟨cur, if cur = a then b else a⟩,
       updateValue st com.code (if cur = a then b else a),
       [(com.code, if cur = a then b else a)]) := by
  have hset := set_vcp_feature_accepts st com (if cur = a then b else a) hw hacc
  unfold toggle_attribute set_attribute
  rw [hget]
  simp only [hset]

end MonitorBoss

namespace MonitorBoss

/-- Claim C8: `toggle_attribute(h, code, a, b)` reads the current value,
sets `b` if the current value equals `a` and otherwise sets `a`, and
returns {old: read value, new: written value}; consequently, starting from
current value `a` with no interference between the two calls, calling it
twice returns {old: a, new: b} and then {old: b, new: a}.  The hypotheses
say the read succeeds and the written values are acceptable to the
monitor (in range / in the discrete parameter set). -/
theorem claim_C8 (st : VCPState) (com : VCPCommand) (a b cur maxv : Nat)
    (hw : com.writable = true)
    (hget : get_attribute st com = .ok (cur, maxv))
    (hnew : setAccepts com.code (if cur = a then b else a) = true) :
    toggle_attribute st com a b =
      (.ok ⟨cur, if cur = a then b else a⟩,
       updateValue st com.code (if cur = a then b else a),
       [(com.code, if cur = a then b else a)]) ∧
    (cur = a → setAccepts com.code a = true →
      toggle_attribute st com a b =
        (.ok ⟨a, b⟩, updateValue st com.code b, [(com.code, b)]) ∧
      toggle_attribute (updateValue st com.code b) com a b =
        (.ok ⟨b, a⟩, updateValue (updateValue st com.code b) com.code a,
         [(com.code, a)])) := by
  have h1 := toggle_attribute_eq st com a b cur maxv hw hget hnew
  refine ⟨h1, ?_⟩
  intro hcura hacca
  subst hcura
  have hba : (if cur = cur then b else cur) = b := by simp
  rw [hba] at h1
  refine ⟨h1, ?_⟩
  have hget2 : get_attribute (updateValue st com.code b) com = .ok (b, maxv) :=
    get_attribute_update st com cur maxv b hget
  have hsecond : (if b = cur then b else cur) = cur := by
    by_cases hbc : b = cur
    · simp [hbc]
    · simp [hbc]
  have hacc2 : setAccepts com.code (if b = cur then b else cur) = true := by
    rw [hsecond]
    exact hacca
  have h2 := toggle_attribute_eq (updateValue st com.code b) com cur b b maxv hw hget2 hacc2
  rw [hsecond] at h2
  exact h2

/-- Witness for claim C8: the dummy monitor's luminance (code 16, current
value 75, declared maximum 80) toggled between 75 and 60 twice. -/
theorem claim_C8_witness :
    toggle_attribute initial_current_values image_luminance_com 75 60 =
      (.ok ⟨75, 60⟩, updateValue initial_current_values 16 60, [(16, 60)]) ∧
    toggle_attribute (updateValue initial_current_values 16 60) image_luminance_com 75 60 =
      (.ok ⟨60, 75⟩, updateValue (updateValue initial_current_values 16 60) 16 75,
       [(16, 75)]) :=
  (claim_C8 initial_current_values image_luminance_com 75 60 75 80 rfl rfl
      (by decide)).2 rfl (by decide)

end MonitorBoss
